import Mathlib

/-!
Verification of the sticker-generation script
`PLC40_InformationStickers_AutoGenerate.py` against its specification.

The script copies values from a worksheet into named shapes of a
presentation.  We embed its pure logic shallowly:

* worksheet cell values become the inductive type `CellValue`
  (`vNone` for Python `None`, `vNaN` for a float NaN, `vNum` for an
  int/float modelled at its exact rational value, `vStr` for strings);
* the value-cleaning block (source lines 180-189, repeated at 212-220
  and 241-249) becomes `formatCell`;
* the index mapper (lines 156-166) becomes `slide_index`,
  `pos_in_slide` and `data_row`;
* the layout helper `coords_for_position` (lines 87-94) is embedded
  with the configuration tables of lines 51-60;
* `safe_cell` (lines 10-21) is embedded over an abstract sequence of
  host responses, one per attempt: `Except.ok v` models a successful
  COM read, `Except.error msg` a raised exception whose text is `msg`;
  the source retries exactly when the text contains the marker
  `"Call was rejected by callee"`, which `isTransient` models with a
  substring test;
* the presentation becomes `Pres` (slide count plus a partial map from
  (slide, shape name) to `Shape`), and the driver loop of `main`
  (lines 156-263) becomes `runMainP` (the pure run, modelling
  executions in which the host raises no exception) and `runMainE`
  (the instrumented run, which also models raised host exceptions via
  a `FailSpec` oracle, the warnings the script prints, and the abort
  that an uncaught exception causes).
-/

namespace PLC40

/-! ## Cell values and the value formatter -/

/-- A scalar read from a worksheet cell.  Numbers (Python `int` and
`float`) are modelled at their exact rational value; a float NaN is the
separate constructor `vNaN` because `str(nan).strip() = "nan"` makes the
source treat it as a blank sentinel. -/
inductive CellValue
  | vNone
  | vNaN
  | vNum (q : ℚ)
  | vStr (s : String)
  deriving DecidableEq

/-- The blank sentinels of source line 181: `["", "nan", "None"]`. -/
def sentinels : List String := ["", "nan", "None"]

/-- Python `str.strip()`: drop leading and trailing whitespace.
Implemented by structural recursion on the character list so that the
kernel can evaluate it. -/
def pyStrip (s : String) : String :=
  ⟨((s.data.dropWhile Char.isWhitespace).reverse.dropWhile Char.isWhitespace).reverse⟩

/-- `round(val, 2)` of source line 187, represented as the integer
number of hundredths: `100 * val` rounded to the nearest integer, ties
to the even integer (Python's banker's rounding).  `100 * val` is the
fraction `(100 * val.num) / val.den`; the definition works on that
numerator and denominator directly so that the kernel can evaluate it
(`Int.fdiv` is floor division, and `val.den` is positive, so `f` is the
floor and `r` the nonnegative remainder). -/
def round2cents (q : ℚ) : ℤ :=
  let a := 100 * q.num
  let b := (q.den : ℤ)
  let f := Int.fdiv a b
  let r := a - f * b
  if 2 * r < b then f
  else if b < 2 * r then f + 1
  else if f % 2 = 0 then f else f + 1

/-- `str()` of a float that carries `z` hundredths: Python prints the
shortest decimal form, keeping one trailing `.0` for whole values. -/
def renderHundredths (z : ℤ) : String :=
  let sign := if z < 0 then "-" else ""
  let n := z.natAbs
  let ip := n / 100
  let fp := n % 100
  if fp = 0 then sign ++ toString ip ++ ".0"
  else if fp % 10 = 0 then sign ++ toString ip ++ "." ++ toString (fp / 10)
  else if fp < 10 then sign ++ toString ip ++ ".0" ++ toString fp
  else sign ++ toString ip ++ "." ++ toString fp

/-- The value-cleaning block of source lines 180-189.
`vNone` fails the `val is not None` test; `vNaN` has
`str(val).strip() = "nan"`, a sentinel; a number never renders to a
sentinel string, and is printed as `str(int(val))` when integral and as
`str(round(val, 2))` otherwise; any other value is `str(val).strip()`
filtered through the sentinels. -/
def formatCell : CellValue → String
  | .vNone => ""
  | .vNaN => ""
  | .vNum q =>
      if q.den = 1 then toString q.num
      else renderHundredths (round2cents q)
  | .vStr s => if pyStrip s ∈ sentinels then "" else pyStrip s

/-! ## Static configuration (source lines 45-60) -/

def stickers_per_slide : ℕ := 6

def total_stickers : ℕ := 120

def FORCE_COORDS : Bool := false

def BASE_LEFTS : List ℚ := [2, 507]

def BASE_TOPS : List ℚ := [63, 245, 420]

/-- `(450.43, 34.02)`, written with `mkRat` (hundredths) so that the
kernel can evaluate comparisons on it. -/
def POINT_SIZE : ℚ × ℚ := (mkRat 45043 100, mkRat 3402 100)

/-- `(32.03, 41.10)` as `mkRat` hundredths. -/
def LOTO_SIZE : ℚ × ℚ := (mkRat 3203 100, mkRat 4110 100)

/-- `(134.12, 21.83)` as `mkRat` hundredths. -/
def CABINET_SIZE : ℚ × ℚ := (mkRat 13412 100, mkRat 2183 100)

def POINT_FONT_SIZE : ℚ := 20

def LOTO_FONT_SIZE : ℚ := 22

def CABINET_FONT_SIZE : ℚ := 10

/-! ## Index mapper (source lines 156-166) -/

/-- `math.ceil(sticker_index / stickers_per_slide)`, line 159.  The
true division `n / 6` is the rational `mkRat n 6` (the equality with
`(n : ℚ) / (stickers_per_slide : ℚ)` is proved in
`slide_index_eq_ceil_div` below). -/
def slide_index (n : ℕ) : ℤ := ⌈mkRat (n : ℤ) stickers_per_slide⌉

/-- `((sticker_index - 1) % stickers_per_slide) + 1`, line 166. -/
def pos_in_slide (n : ℕ) : ℕ := ((n - 1) % stickers_per_slide) + 1

/-- The worksheet row for sticker `n`: the loop of line 156 runs
`data_row` over `3 .. total_stickers + 2` with
`sticker_index = data_row - 2` (line 157). -/
def data_row (n : ℕ) : ℕ := n + 2

/-- `f"{n:02d}"`: decimal digits, left-padded with zeros to width 2. -/
def pad2 (n : ℕ) : String := if n < 10 then "0" ++ toString n else toString n

/-- Shape name `f"Point {sticker_str}.{idx_str}"`, line 171. -/
def pointName (n m : ℕ) : String := "Point " ++ pad2 n ++ "." ++ pad2 m

/-- Shape name `f"LOTO Amount {sticker_str}"`, line 206. -/
def lotoName (n : ℕ) : String := "LOTO Amount " ++ pad2 n

/-- Shape name `f"Cabinet {sticker_str}"`, line 235. -/
def cabinetName (n : ℕ) : String := "Cabinet " ++ pad2 n

/-- A rectangle `(left, top, width, height)`. -/
abbrev Coords := ℚ × ℚ × ℚ × ℚ

/-- Source lines 87-94.  Python raises `IndexError` outside the defined
2 x 3 grid; every use in the script and in the claims stays inside it,
so the out-of-range default of `getD` is never reached. -/
def coords_for_position (pos_index : ℕ) (size : ℚ × ℚ) : Coords :=
  let idx := pos_index - 1
  let col := idx % 2
  let row := idx / 2
  (BASE_LEFTS.getD col 0, BASE_TOPS.getD row 0, size.1, size.2)

/-! ## safe_cell (source lines 10-21) -/

/-- The marker of line 16: `"Call was rejected by callee" in str(e)`. -/
def transientMarker : String := "Call was rejected by callee"

/-- `pat` is a prefix of the character list. -/
def charsPrefix : List Char → List Char → Bool
  | [], _ => true
  | _ :: _, [] => false
  | a :: pat, b :: s => a == b && charsPrefix pat s

/-- `pat` occurs contiguously somewhere in the character list: the
Python `in` test on strings. -/
def charsInfix (pat : List Char) : List Char → Bool
  | [] => pat.isEmpty
  | c :: rest => charsPrefix pat (c :: rest) || charsInfix pat rest

/-- `"Call was rejected by callee" in str(e)`, line 16. -/
def isTransient (msg : String) : Bool := charsInfix transientMarker.data msg.data

/-- Result of one `safe_cell` call: a value, a re-raised non-transient
exception, or the `RuntimeError` of line 21 naming the retry bound and
the cell. -/
inductive ReadResult
  | value (v : CellValue)
  | raisedOther (msg : String)
  | exhausted (retries row col : ℕ)
  deriving DecidableEq

/-- A `safe_cell` call together with how often it slept (line 17, one
fixed 0.2-second delay per sleep) and how many attempts it made. -/
structure ReadOutcome where
  result : ReadResult
  sleeps : ℕ
  attempts : ℕ
  deriving DecidableEq

/-- The retry loop of lines 12-20.  `f i` is the host's response to the
`i`-th attempt (0-based); the first argument is the remaining fuel of
the `for _ in range(retries)` loop. -/
def safeCellAux (f : ℕ → Except String CellValue) (row col retries : ℕ) :
    ℕ → ℕ → ℕ → ReadOutcome
  | 0, sleeps, attempts => ⟨.exhausted retries row col, sleeps, attempts⟩
  | k + 1, sleeps, attempts =>
    match f attempts with
    | .ok v => ⟨.value v, sleeps, attempts + 1⟩
    | .error msg =>
        if isTransient msg then safeCellAux f row col retries k (sleeps + 1) (attempts + 1)
        else ⟨.raisedOther msg, sleeps, attempts + 1⟩

/-- `safe_cell(ws, row, col, retries)` of lines 10-21; the source
always uses the default `retries = 5`. -/
def safe_cell (f : ℕ → Except String CellValue) (row col retries : ℕ) : ReadOutcome :=
  safeCellAux f row col retries retries 0 0

/-- Host-response sequence used to exercise `safe_cell`: three
transient rejections, then a successful read. -/
def demoReads : ℕ → Except String CellValue := fun i =>
  if i < 3 then .error transientMarker else .ok (.vNum 7)

/-! ## The presentation and the driver loop (source lines 96-119 and 156-263)

A shape carries the state the script can read or write: its text, its
rectangle, its font size, its text-frame orientation and whether it has
a text frame at all (a COM shape without one raises on any
`shp.TextFrame` access, which the script's `try/except` blocks turn
into a skip).  A presentation is a slide count plus a partial map from
(slide number, shape name) to shapes — the script addresses shapes only
by `slide.Shapes(name)`. -/

structure Shape where
  text : String
  left : ℚ
  top : ℚ
  width : ℚ
  height : ℚ
  fontSize : ℚ
  orientation : ℤ
  hasTextFrame : Bool
  deriving DecidableEq

@[ext]
structure Pres where
  slideCount : ℤ
  shapes : ℤ × String → Option Shape

/-- `slide.Shapes(name)` wrapped in `try/except` (lines 114-119):
`none` models the lookup failure. -/
def safe_shape (p : Pres) (slide : ℤ) (name : String) : Option Shape :=
  p.shapes (slide, name)

/-- Overwrite the shape stored at key `k`. -/
def setShape (p : Pres) (k : ℤ × String) (s : Shape) : Pres :=
  { p with shapes := fun k2 => if k2 = k then some s else p.shapes k2 }

/-- `shp.TextFrame.Orientation in (3, 4)`, the two vertical
orientation codes of lines 195, 225 and 254. -/
def isVertical (ori : ℤ) : Bool := ori == 3 || ori == 4

/-- The guarded text write of lines 193-198 (repeated at 224-228 and
253-257): inside `try/except pass`, write the text unless the text
frame is vertically oriented.  A shape without a text frame raises on
the `Orientation` access, which the `except` swallows, leaving the
shape unchanged. -/
def writeShapeText (p : Pres) (k : ℤ × String) (txt : String) : Pres :=
  match p.shapes k with
  | none => p
  | some s =>
      if s.hasTextFrame && !isVertical s.orientation then
        setShape p k { s with text := txt }
      else p

/-- `apply_coords` of lines 96-101: set left, top, width and height.
Note the source does not wrap these four property writes in any
`try/except`. -/
def apply_coords (p : Pres) (k : ℤ × String) (c : Coords) : Pres :=
  match p.shapes k with
  | none => p
  | some s =>
      setShape p k { s with left := c.1, top := c.2.1, width := c.2.2.1, height := c.2.2.2 }

/-- `apply_font_size` of lines 103-112: inside its own `try/except
pass`, set the font size of the shape's text range when the shape has a
text frame. -/
def apply_font_size (p : Pres) (k : ℤ × String) (sz : ℚ) : Pres :=
  match p.shapes k with
  | none => p
  | some s => if s.hasTextFrame then setShape p k { s with fontSize := sz } else p

/-- The three kinds of per-sticker fields, which the driver treats
differently when `FORCE_COORDS` is enabled. -/
inductive FieldKind
  | point
  | loto
  | cabinet
  deriving DecidableEq

/-- The six per-sticker fields in source order: the four point shapes
bound to worksheet columns 9-12 (lines 168-171), the LOTO Amount shape
bound to column 13 (lines 205-206), and the Cabinet shape bound to
column 14 (lines 234-235).  Each entry is (column, shape name, kind). -/
def stickerFields (n : ℕ) : List (ℕ × String × FieldKind) :=
  [(9, pointName n 1, .point), (10, pointName n 2, .point),
   (11, pointName n 3, .point), (12, pointName n 4, .point),
   (13, lotoName n, .loto), (14, cabinetName n, .cabinet)]

/-- Line 203: the computed rectangle with `width + 40`. -/
def widenRect (c : Coords) : Coords := (c.1, c.2.1, c.2.2.1 + 40, c.2.2.2)

/-- One field of one sticker, pure run (no host exception raised):
locate the shape (skip when missing), format the cell value, write the
text, and then, per field kind:
* point (lines 200-203): when `FORCE_COORDS`, apply the rectangle
  computed from `CABINET_SIZE` widened by 40 — the source really uses
  `CABINET_SIZE` here, not `POINT_SIZE` — and no font size;
* loto (lines 230-232): when `FORCE_COORDS`, apply the `LOTO_SIZE`
  rectangle and the LOTO font size;
* cabinet (lines 259-261): when `FORCE_COORDS`, apply the
  `CABINET_SIZE` rectangle; apply the cabinet font size
  unconditionally — line 261 sits outside the `if FORCE_COORDS:`
  guard. -/
def processFieldP (force : Bool) (data : ℕ → ℕ → CellValue) (row pos : ℕ) (slide : ℤ)
    (p : Pres) (fld : ℕ × String × FieldKind) : Pres :=
  let k := (slide, fld.2.1)
  match safe_shape p slide fld.2.1 with
  | none => p
  | some _ =>
    let txt := formatCell (data row fld.1)
    let p1 := writeShapeText p k txt
    match fld.2.2 with
    | .point =>
        if force then apply_coords p1 k (widenRect (coords_for_position pos CABINET_SIZE))
        else p1
    | .loto =>
        if force then
          apply_font_size (apply_coords p1 k (coords_for_position pos LOTO_SIZE)) k
            LOTO_FONT_SIZE
        else p1
    | .cabinet =>
        apply_font_size
          (if force then apply_coords p1 k (coords_for_position pos CABINET_SIZE) else p1) k
          CABINET_FONT_SIZE

/-- One sticker, pure run (lines 156-261): compute the destination
slide, skip the sticker when the slide is beyond the presentation
(lines 161-163), otherwise process the six fields in order. -/
def processStickerP (force : Bool) (data : ℕ → ℕ → CellValue) (n : ℕ) (p : Pres) : Pres :=
  if slide_index n > p.slideCount then p
  else
    (stickerFields n).foldl
      (processFieldP force data (data_row n) (pos_in_slide n) (slide_index n)) p

/-- The whole write pass of `main` (lines 156-263) in the pure model:
stickers 1 to `total_stickers` in order (the source iterates
`data_row` over `3 .. total_stickers + 2`; `data_row n = n + 2`). -/
def runMainP (force : Bool) (data : ℕ → ℕ → CellValue) (p : Pres) : Pres :=
  (List.range' 1 total_stickers).foldl (fun q n => processStickerP force data n q) p

/-! ## The instrumented driver: warnings and uncaught exceptions

`FailSpec` is an oracle telling which shape operations the host rejects
with an exception: `textFails` for the text write of lines 193-198
(caught by its `except: pass`), `coordsFail` for the four geometry
writes of `apply_coords` (lines 96-101, NOT wrapped in any
`try/except`, so the exception propagates and aborts the run), and
`fontFails` for the font write (caught inside `apply_font_size`). -/

structure FailSpec where
  textFails : ℤ × String → Bool
  coordsFail : ℤ × String → Bool
  fontFails : ℤ × String → Bool

/-- The oracle for a host that raises nothing. -/
def noFail : FailSpec := ⟨fun _ => false, fun _ => false, fun _ => false⟩

/-- The warnings the script prints with a leading warning sign. -/
inductive Warning
  | missingSlide (slide : ℤ) (sticker : ℕ)
  | missingShape (name : String) (slide : ℤ)
  deriving DecidableEq

/-- Run state of the instrumented driver: the presentation, the
warnings printed so far, and whether an uncaught exception has ended
the run. -/
structure RunState where
  pres : Pres
  warnings : List Warning
  aborted : Bool

/-- Text write with the `except: pass` of line 197-198: a raised write
leaves the shape unchanged and is swallowed. -/
def writeShapeTextE (fails : FailSpec) (p : Pres) (k : ℤ × String) (txt : String) : Pres :=
  if fails.textFails k then p else writeShapeText p k txt

/-- Font write with the `except: pass` inside `apply_font_size`. -/
def apply_font_sizeE (fails : FailSpec) (p : Pres) (k : ℤ × String) (sz : ℚ) : Pres :=
  if fails.fontFails k then p else apply_font_size p k sz

/-- One field of one sticker in the instrumented driver.  A missing
shape prints a warning and skips the field (lines 173-175, 208-209,
237-238).  A rejected geometry write inside `apply_coords` has no
handler, so it aborts the run with the state written so far. -/
def processFieldE (force : Bool) (data : ℕ → ℕ → CellValue) (fails : FailSpec)
    (row pos : ℕ) (slide : ℤ) (st : RunState) (fld : ℕ × String × FieldKind) : RunState :=
  if st.aborted then st else
  let k := (slide, fld.2.1)
  match safe_shape st.pres slide fld.2.1 with
  | none => { st with warnings := st.warnings ++ [.missingShape fld.2.1 slide] }
  | some _ =>
    let txt := formatCell (data row fld.1)
    let p1 := writeShapeTextE fails st.pres k txt
    match fld.2.2 with
    | .point =>
        if force then
          if fails.coordsFail k then { st with pres := p1, aborted := true }
          else { st with pres := apply_coords p1 k (widenRect (coords_for_position pos CABINET_SIZE)) }
        else { st with pres := p1 }
    | .loto =>
        if force then
          if fails.coordsFail k then { st with pres := p1, aborted := true }
          else
            let p2 := apply_coords p1 k (coords_for_position pos LOTO_SIZE)
            { st with pres := apply_font_sizeE fails p2 k LOTO_FONT_SIZE }
        else { st with pres := p1 }
    | .cabinet =>
        if force then
          if fails.coordsFail k then { st with pres := p1, aborted := true }
          else
            let p2 := apply_coords p1 k (coords_for_position pos CABINET_SIZE)
            { st with pres := apply_font_sizeE fails p2 k CABINET_FONT_SIZE }
        else { st with pres := apply_font_sizeE fails p1 k CABINET_FONT_SIZE }

/-- One sticker in the instrumented driver, with the missing-slide
warning of lines 161-163. -/
def processStickerE (force : Bool) (data : ℕ → ℕ → CellValue) (fails : FailSpec)
    (n : ℕ) (st : RunState) : RunState :=
  if st.aborted then st else
  if slide_index n > st.pres.slideCount then
    { st with warnings := st.warnings ++ [.missingSlide (slide_index n) n] }
  else
    (stickerFields n).foldl
      (processFieldE force data fails (data_row n) (pos_in_slide n) (slide_index n)) st

/-- The whole write pass in the instrumented model. -/
def runMainE (force : Bool) (data : ℕ → ℕ → CellValue) (fails : FailSpec) (p : Pres) :
    RunState :=
  (List.range' 1 total_stickers).foldl (fun st n => processStickerE force data fails n st)
    ⟨p, [], false⟩

/-! ## Concrete fixtures for the driver theorems -/

/-- A shape with blank geometry, font size 30, horizontal orientation
and a text frame. -/
def demoShape : Shape := ⟨"old", 0, 0, 0, 0, 30, 0, true⟩

/-- Worksheet returning the string `"X"` everywhere. -/
def dataX : ℕ → ℕ → CellValue := fun _ _ => .vStr "X"

/-- One slide holding only the sticker-1 cabinet shape. -/
def presCab : Pres :=
  ⟨1, fun k => if k = ((1 : ℤ), cabinetName 1) then some demoShape else none⟩

/-- One slide holding only the sticker-1 first point shape. -/
def presPoint : Pres :=
  ⟨1, fun k => if k = ((1 : ℤ), pointName 1 1) then some demoShape else none⟩

/-- One slide holding the sticker-1 first point shape and cabinet
shape. -/
def presTwo : Pres :=
  ⟨1, fun k =>
    if k = ((1 : ℤ), pointName 1 1) then some demoShape
    else if k = ((1 : ℤ), cabinetName 1) then some demoShape
    else none⟩

/-- An oracle under which the geometry write on the sticker-1 first
point shape raises. -/
def failsPoint : FailSpec :=
  ⟨fun _ => false, fun k => decide (k = ((1 : ℤ), pointName 1 1)), fun _ => false⟩

/-! ## Reified writes, for the idempotence proof

Every write the pure driver performs sets fields of one shape to values
that do not depend on the shape's previous field contents, and whether
a write happens is decided by observables — slide count, shape
existence, text-frame orientation and presence — that no write changes.
`Upd` reifies one such write; the driver is proved equal to applying
its reified write list, and applying the same constant-write list twice
is proved equal to applying it once. -/

/-- The per-shape observables that gate the driver's writes. -/
def shapeObs (s : Shape) : ℤ × Bool := (s.orientation, s.hasTextFrame)

/-- Two presentations agree on everything that gates writes. -/
def SameObs (p q : Pres) : Prop :=
  p.slideCount = q.slideCount ∧
  ∀ k, (p.shapes k).map shapeObs = (q.shapes k).map shapeObs

/-- One reified write on one key: optionally a text, a rectangle
(left, top, width, height as one block, the way `apply_coords` writes
them), and a font size. -/
structure Upd where
  key : ℤ × String
  newText : Option String
  newRect : Option Coords
  newFont : Option ℚ

/-- Apply one reified write to a shape. -/
def applyShapeUpd (u : Upd) (s : Shape) : Shape :=
  let s1 := match u.newText with
    | none => s
    | some t => { s with text := t }
  let s2 := match u.newRect with
    | none => s1
    | some c => { s1 with left := c.1, top := c.2.1, width := c.2.2.1, height := c.2.2.2 }
  match u.newFont with
  | none => s2
  | some fz => { s2 with fontSize := fz }

/-- Apply one reified write to the presentation (skipping an absent
key, as every driver write does). -/
def applyUpd (p : Pres) (u : Upd) : Pres :=
  match p.shapes u.key with
  | none => p
  | some s => setShape p u.key (applyShapeUpd u s)

/-- Apply a list of reified writes in order. -/
def applyUpds (p : Pres) (us : List Upd) : Pres := us.foldl applyUpd p

/-- Apply a list of reified writes to one shape in order. -/
def applyShapeUpds (us : List Upd) (s : Shape) : Shape :=
  us.foldl (fun s u => applyShapeUpd u s) s

/-- The shape-exists gate: `safe_shape` found the shape. -/
def hasShape (p : Pres) (k : ℤ × String) : Bool := (p.shapes k).isSome

/-- The gate of the text write: a text frame with a non-vertical
orientation. -/
def textGate (p : Pres) (k : ℤ × String) : Bool :=
  match p.shapes k with
  | some s => s.hasTextFrame && !isVertical s.orientation
  | none => false

/-- The gate of the font write: a text frame. -/
def fontGate (p : Pres) (k : ℤ × String) : Bool :=
  match p.shapes k with
  | some s => s.hasTextFrame
  | none => false

/-- The reified writes of one field step, computed from the gating
observables of `p`. -/
def fieldUpds (force : Bool) (data : ℕ → ℕ → CellValue) (row pos : ℕ) (slide : ℤ)
    (p : Pres) (fld : ℕ × String × FieldKind) : List Upd :=
  let k := (slide, fld.2.1)
  if hasShape p k then
    let tU : Upd :=
      ⟨k, if textGate p k then some (formatCell (data row fld.1)) else none, none, none⟩
    match fld.2.2 with
    | .point =>
        if force then
          [tU, ⟨k, none, some (widenRect (coords_for_position pos CABINET_SIZE)), none⟩]
        else [tU]
    | .loto =>
        if force then
          [tU, ⟨k, none, some (coords_for_position pos LOTO_SIZE), none⟩,
           ⟨k, none, none, if fontGate p k then some LOTO_FONT_SIZE else none⟩]
        else [tU]
    | .cabinet =>
        (if force then [tU, ⟨k, none, some (coords_for_position pos CABINET_SIZE), none⟩]
         else [tU]) ++
          [⟨k, none, none, if fontGate p k then some CABINET_FONT_SIZE else none⟩]
  else []

/-- The reified writes of one sticker. -/
def stickerUpds (force : Bool) (data : ℕ → ℕ → CellValue) (n : ℕ) (p : Pres) : List Upd :=
  if slide_index n > p.slideCount then []
  else
    (stickerFields n).foldl
      (fun acc fld =>
        acc ++ fieldUpds force data (data_row n) (pos_in_slide n) (slide_index n) p fld) []

/-- The reified writes of the whole run. -/
def runUpds (force : Bool) (data : ℕ → ℕ → CellValue) (p : Pres) : List Upd :=
  (List.range' 1 total_stickers).foldl (fun acc n => acc ++ stickerUpds force data n p) []

/-- Does some write in the list set the text? -/
def touchesText (us : List Upd) : Bool := us.any fun u => u.newText.isSome

/-- Does some write in the list set the rectangle? -/
def touchesRect (us : List Upd) : Bool := us.any fun u => u.newRect.isSome

/-- Does some write in the list set the font size? -/
def touchesFont (us : List Upd) : Bool := us.any fun u => u.newFont.isSome

/-- The writes of the list that hit key `k`. -/
def keyUpds (k : ℤ × String) (us : List Upd) : List Upd :=
  us.filter fun u => decide (u.key = k)

/-! # Theorems -/

/-- `mkRat` agrees with the rational division that the claim writes,
so `slide_index n` is `math.ceil` of the true division `n / 6`. -/
theorem slide_index_eq_ceil_div (n : ℕ) :
    slide_index n = ⌈(n : ℚ) / (stickers_per_slide : ℚ)⌉ := by
  simp [slide_index, stickers_per_slide, Rat.mkRat_eq_div]

/-- Claim C1: with `stickers_per_slide = 6`, sticker index `n`
(`1 ≤ n ≤ total_stickers`) is sent to slide `⌈n / 6⌉` — equivalently
the integer ceiling division `(n + 6 - 1) / 6` — at the 1-based
position `((n - 1) % 6) + 1` inside the slide, which always lies in
`1..6`; index 1 gives slide 1 position 1, index 6 gives slide 1
position 6, and index 7 gives slide 2 position 1. -/
theorem c1_slide_and_position (n : ℕ) (h1 : 1 ≤ n) (h2 : n ≤ total_stickers) :
    stickers_per_slide = 6 ∧
    slide_index n = ⌈(n : ℚ) / (stickers_per_slide : ℚ)⌉ ∧
    slide_index n = (((n + stickers_per_slide - 1) / stickers_per_slide : ℕ) : ℤ) ∧
    pos_in_slide n = ((n - 1) % stickers_per_slide) + 1 ∧
    1 ≤ pos_in_slide n ∧ pos_in_slide n ≤ stickers_per_slide ∧
    slide_index 1 = 1 ∧ pos_in_slide 1 = 1 ∧
    slide_index 6 = 1 ∧ pos_in_slide 6 = 6 ∧
    slide_index 7 = 2 ∧ pos_in_slide 7 = 1 := by
  have h2' : n ≤ 120 := by simpa [total_stickers] using h2
  refine ⟨rfl, slide_index_eq_ceil_div n, ?_, rfl, ?_, ?_,
    by decide, by decide, by decide, by decide, by decide, by decide⟩
  · have h : ∀ m : ℕ, m < 121 →
        slide_index m = (((m + stickers_per_slide - 1) / stickers_per_slide : ℕ) : ℤ) := by
      decide
    exact h n (by omega)
  · simp [pos_in_slide]
  · have hlt : (n - 1) % stickers_per_slide < stickers_per_slide :=
      Nat.mod_lt _ (by decide)
    simp only [pos_in_slide]
    omega

/-- Witness for C1 at the concrete index 13. -/
theorem c1_witness :
    slide_index 13 = (((13 + stickers_per_slide - 1) / stickers_per_slide : ℕ) : ℤ) :=
  (c1_slide_and_position 13 (by decide) (by decide)).2.2.1

/-- Claim C2: the value formatter is a total pure function.  `None`, a
NaN, and any string stripping to a blank sentinel give the empty
string; an integral number prints as its integer text; a non-integral
number prints as its value rounded to two decimal places; any other
string prints stripped.  Concrete cases: `4` gives `"4"`,
`9/2 = 4.5` gives `"4.5"`, `4567/1000 = 4.567` gives `"4.57"`, and
`" abc "` gives `"abc"`. -/
theorem c2_value_formatter :
    formatCell .vNone = "" ∧
    formatCell .vNaN = "" ∧
    (∀ s : String, pyStrip s ∈ sentinels → formatCell (.vStr s) = "") ∧
    (∀ q : ℚ, q.den = 1 → formatCell (.vNum q) = toString q.num) ∧
    (∀ q : ℚ, q.den ≠ 1 → formatCell (.vNum q) = renderHundredths (round2cents q)) ∧
    formatCell (.vNum 4) = "4" ∧
    mkRat 9 2 = (4.5 : ℚ) ∧ formatCell (.vNum (mkRat 9 2)) = "4.5" ∧
    mkRat 4567 1000 = (4.567 : ℚ) ∧ formatCell (.vNum (mkRat 4567 1000)) = "4.57" ∧
    (∀ s : String, pyStrip s ∉ sentinels → formatCell (.vStr s) = pyStrip s) ∧
    formatCell (.vStr " abc ") = "abc" := by
  refine ⟨rfl, rfl, ?_, ?_, ?_, by decide,
    by norm_num [Rat.mkRat_eq_div], by decide,
    by norm_num [Rat.mkRat_eq_div], by decide, ?_, by decide⟩
  · intro s hs; simp [formatCell, hs]
  · intro q hq; simp [formatCell, hq]
  · intro q hq; simp [formatCell, hq]
  · intro s hs; simp [formatCell, hs]

/-- Witness for C2's quantified clauses at concrete inputs. -/
theorem c2_witness :
    formatCell (.vStr "nan") = "" ∧ formatCell (.vNum 17) = toString (17 : ℚ).num :=
  ⟨c2_value_formatter.2.2.1 "nan" (by decide),
   c2_value_formatter.2.2.2.1 17 (by decide)⟩

/-- Claim C8: for any position `p` in `1..6` and any size `(w, h)`,
`coords_for_position` yields
`(BASE_LEFTS[(p-1) % 2], BASE_TOPS[(p-1) / 2], w, h)`; positions 1 and
2 differ only in `left` (columns 0 and 1 of `BASE_LEFTS`), and
positions 1 and 3 differ only in `top` (rows 0 and 1 of
`BASE_TOPS`). -/
theorem c8_coords_for_position (p : ℕ) (hp1 : 1 ≤ p) (hp2 : p ≤ 6) (w h : ℚ) :
    coords_for_position p (w, h) =
      (BASE_LEFTS.getD ((p - 1) % 2) 0, BASE_TOPS.getD ((p - 1) / 2) 0, w, h) ∧
    (∀ s : ℚ × ℚ,
      coords_for_position 1 s = (2, 63, s.1, s.2) ∧
      coords_for_position 2 s = (507, 63, s.1, s.2) ∧
      coords_for_position 3 s = (2, 245, s.1, s.2)) ∧
    (2 : ℚ) ≠ 507 ∧ (63 : ℚ) ≠ 245 :=
  ⟨rfl, fun _ => ⟨rfl, rfl, rfl⟩, by decide, by decide⟩

/-- Witness for C8 at position 4 with size (10, 20). -/
theorem c8_witness :
    coords_for_position 4 ((10 : ℚ), (20 : ℚ)) =
      (BASE_LEFTS.getD ((4 - 1) % 2) 0, BASE_TOPS.getD ((4 - 1) / 2) 0, 10, 20) :=
  (c8_coords_for_position 4 (by decide) (by decide) 10 20).1

/-- A run of `k` transient rejections consumes `k` units of fuel, each
adding exactly one sleep and one attempt. -/
theorem safeCellAux_shift (f : ℕ → Except String CellValue) (row col retries : ℕ) :
    ∀ k fuel sleeps attempts,
      (∀ i, i < k → ∃ m, f (attempts + i) = .error m ∧ isTransient m = true) →
      safeCellAux f row col retries (k + fuel) sleeps attempts =
        safeCellAux f row col retries fuel (sleeps + k) (attempts + k) := by
  intro k
  induction k with
  | zero => intro fuel s a _; simp
  | succ k ih =>
    intro fuel s a h
    obtain ⟨m, hm, ht⟩ := h 0 (by omega)
    rw [show k + 1 + fuel = (k + fuel) + 1 by omega]
    rw [show a + 0 = a by omega] at hm
    simp only [safeCellAux, hm, ht, if_pos]
    rw [ih fuel (s + 1) (a + 1) (fun i hi => by
      obtain ⟨m2, hm2, ht2⟩ := h (i + 1) (by omega)
      exact ⟨m2, by rw [show a + 1 + i = a + (i + 1) by omega]; exact hm2, ht2⟩)]
    rw [show s + 1 + k = s + (k + 1) by omega, show a + 1 + k = a + (k + 1) by omega]

/-- Claim C3: `safe_cell` retries only on the transient-rejection
marker, sleeping once (the fixed 0.2-second delay) before each retry;
`k < 5` transient rejections followed by a success return the value
with exactly `k` sleeps; a non-transient exception propagates
immediately; five transient rejections exhaust the loop and raise the
terminal error naming the retry bound and the cell, after exactly 5
attempts. -/
theorem c3_safe_cell (f : ℕ → Except String CellValue) (row col : ℕ) :
    (∀ k v, k < 5 →
      (∀ i, i < k → ∃ m, f i = .error m ∧ isTransient m = true) →
      f k = .ok v →
      safe_cell f row col 5 = ⟨.value v, k, k + 1⟩) ∧
    ((∀ i, i < 5 → ∃ m, f i = .error m ∧ isTransient m = true) →
      safe_cell f row col 5 = ⟨.exhausted 5 row col, 5, 5⟩) ∧
    (∀ j m, j < 5 →
      (∀ i, i < j → ∃ m2, f i = .error m2 ∧ isTransient m2 = true) →
      f j = .error m → isTransient m = false →
      safe_cell f row col 5 = ⟨.raisedOther m, j, j + 1⟩) := by
  have base : ∀ k, k < 5 →
      (∀ i, i < k → ∃ m, f i = .error m ∧ isTransient m = true) →
      safe_cell f row col 5 = safeCellAux f row col 5 (5 - k) k k := by
    intro k hk h
    have := safeCellAux_shift f row col 5 k (5 - k) 0 0 (fun i hi => by
      obtain ⟨m, hm, ht⟩ := h i hi
      exact ⟨m, by rw [show 0 + i = i by omega]; exact hm, ht⟩)
    rw [show k + (5 - k) = 5 by omega] at this
    simpa [safe_cell] using this
  refine ⟨?_, ?_, ?_⟩
  · intro k v hk h hfk
    rw [base k hk h, show 5 - k = (4 - k) + 1 by omega]
    simp only [safeCellAux, hfk]
  · intro h
    have := safeCellAux_shift f row col 5 5 0 0 0 (fun i hi => by
      obtain ⟨m, hm, ht⟩ := h i hi
      exact ⟨m, by rw [show 0 + i = i by omega]; exact hm, ht⟩)
    rw [show (5 : ℕ) + 0 = 5 by omega] at this
    simpa [safe_cell, safeCellAux] using this
  · intro j m hj h hfj hnt
    rw [base j hj h, show 5 - j = (4 - j) + 1 by omega]
    simp only [safeCellAux, hfj, hnt]
    simp

/-- Witness for C3: three transient rejections then a success return
the value after exactly 3 sleeps and 4 attempts. -/
theorem c3_witness :
    safe_cell demoReads 15 13 5 = ⟨.value (.vNum 7), 3, 3 + 1⟩ :=
  (c3_safe_cell demoReads 15 13).1 3 (.vNum 7) (by omega)
    (fun i hi => ⟨transientMarker, by simp [demoReads, hi], by decide⟩)
    (by simp [demoReads])

set_option maxRecDepth 40000 in
/-- Claim C4 fails on the code (code bug): with the force-coordinates
flag at its source value `False`, a run still changes the cabinet
shape's font size, because line 261 applies the cabinet font size
outside the `if FORCE_COORDS:` guard (the analogous LOTO application on
line 232 is inside the guard, and the spec itself flags the asymmetry
as likely unintentional).  On a presentation whose only shape is the
sticker-1 cabinet shape with font size 30, the run leaves the geometry
untouched but sets the font size to `CABINET_FONT_SIZE = 10`. -/
theorem c4_cabinet_font_written_without_flag :
    FORCE_COORDS = false ∧
    (runMainP FORCE_COORDS dataX presCab).shapes ((1 : ℤ), cabinetName 1) =
      some { demoShape with text := "X", fontSize := CABINET_FONT_SIZE } ∧
    demoShape.fontSize = 30 ∧ CABINET_FONT_SIZE ≠ 30 :=
  ⟨rfl, by decide, rfl, by decide⟩

set_option maxRecDepth 40000 in
/-- Claim C5 fails on the code (code bug): with force-coordinates
enabled, a point shape does not receive the point entry of the size
table.  Lines 200-203 apply the rectangle computed from `CABINET_SIZE`
widened by 40 points to each point shape, and never apply any font
size to it; `POINT_SIZE` and `POINT_FONT_SIZE` are defined but unused
in the whole script.  On a presentation whose only shape is the
sticker-1 first point shape, the run sets the width to
`CABINET_SIZE.1 + 40 = 174.12` (not `POINT_SIZE.1 = 450.43`) and
leaves the font size at 30 (not `POINT_FONT_SIZE = 20`). -/
theorem c5_point_gets_cabinet_rect :
    (runMainP true dataX presPoint).shapes ((1 : ℤ), pointName 1 1) =
      some { demoShape with text := "X", left := 2, top := 63,
                            width := CABINET_SIZE.1 + 40, height := CABINET_SIZE.2 } ∧
    CABINET_SIZE.1 + 40 ≠ POINT_SIZE.1 ∧
    POINT_FONT_SIZE ≠ demoShape.fontSize := by
  refine ⟨by rfl, ?_, by decide⟩
  norm_num [CABINET_SIZE, POINT_SIZE, Rat.mkRat_eq_div]

/-- A field step with no geometry-write failure leaves the abort flag
unchanged. -/
theorem processFieldE_aborted (force : Bool) (data : ℕ → ℕ → CellValue)
    (fails : FailSpec) (row pos : ℕ) (slide : ℤ)
    (hc : ∀ k, fails.coordsFail k = false) (st : RunState) (fld : ℕ × String × FieldKind) :
    (processFieldE force data fails row pos slide st fld).aborted = st.aborted := by
  rcases fld with ⟨col, name, kind⟩
  simp only [processFieldE]
  cases hab : st.aborted
  · simp only [Bool.false_eq_true, if_false]
    cases h : safe_shape st.pres slide name
    · simp
    · cases kind <;> cases force <;> simp [hc, hab]
  · simp [hab]

/-- Folding the six field steps preserves the abort flag when no
geometry write fails. -/
theorem foldl_processFieldE_aborted (force : Bool) (data : ℕ → ℕ → CellValue)
    (fails : FailSpec) (row pos : ℕ) (slide : ℤ)
    (hc : ∀ k, fails.coordsFail k = false) :
    ∀ (L : List (ℕ × String × FieldKind)) (st : RunState),
      (L.foldl (processFieldE force data fails row pos slide) st).aborted = st.aborted := by
  intro L
  induction L with
  | nil => intro st; rfl
  | cons fld L ih =>
      intro st
      rw [List.foldl_cons, ih, processFieldE_aborted force data fails row pos slide hc]

/-- A sticker step with no geometry-write failure leaves the abort
flag unchanged. -/
theorem processStickerE_aborted (force : Bool) (data : ℕ → ℕ → CellValue)
    (fails : FailSpec) (hc : ∀ k, fails.coordsFail k = false) (n : ℕ) (st : RunState) :
    (processStickerE force data fails n st).aborted = st.aborted := by
  simp only [processStickerE]
  cases hab : st.aborted
  · simp only [Bool.false_eq_true, if_false]
    split
    · rfl
    · rw [foldl_processFieldE_aborted force data fails _ _ _ hc, hab]
  · simp [hab]

set_option maxRecDepth 40000 in
/-- Counterexample to claim C6 as stated: a failure while writing
geometry does stop the run.  With force-coordinates enabled, a
presentation containing the sticker-1 first point shape and the
sticker-1 cabinet shape, and a host that rejects the geometry write on
that point shape, the run aborts (`apply_coords` has no `try/except`),
and the cabinet shape — a later field of the same row — is never
written: its text is still the original `"old"`. -/
theorem c6_counterexample :
    failsPoint.coordsFail ((1 : ℤ), pointName 1 1) = true ∧
    presTwo.shapes ((1 : ℤ), cabinetName 1) = some demoShape ∧
    (runMainE true dataX failsPoint presTwo).aborted = true ∧
    (runMainE true dataX failsPoint presTwo).pres.shapes ((1 : ℤ), cabinetName 1) =
      some demoShape :=
  ⟨by decide, by decide, by decide, by decide⟩

/-- Claim C6 (amended): a missing target slide and a missing target
shape produce a warning and do not stop the row/field loop; failures
while writing text or font are swallowed silently and do not stop the
loop — with no geometry-write failure the run never aborts, whatever
shapes or slides are missing and whatever text or font writes the host
rejects; but a geometry-write failure (reachable only with
force-coordinates enabled) is not caught and aborts the run. -/
theorem c6_tolerated_failures (force : Bool) (data : ℕ → ℕ → CellValue)
    (fails : FailSpec) (p : Pres) (hc : ∀ k, fails.coordsFail k = false) :
    (runMainE force data fails p).aborted = false ∧
    (∀ row pos slide st (fld : ℕ × String × FieldKind), st.aborted = false →
      safe_shape st.pres slide fld.2.1 = none →
      processFieldE force data fails row pos slide st fld =
        { st with warnings := st.warnings ++ [.missingShape fld.2.1 slide] }) ∧
    (∀ n st, st.aborted = false → slide_index n > st.pres.slideCount →
      processStickerE force data fails n st =
        { st with warnings := st.warnings ++ [.missingSlide (slide_index n) n] }) := by
  refine ⟨?_, ?_, ?_⟩
  · have hfold : ∀ (L : List ℕ) (st : RunState),
        (L.foldl (fun st n => processStickerE force data fails n st) st).aborted =
          st.aborted := by
      intro L
      induction L with
      | nil => intro st; rfl
      | cons n L ih =>
          intro st
          rw [List.foldl_cons, ih, processStickerE_aborted force data fails hc]
    exact hfold _ ⟨p, [], false⟩
  · intro row pos slide st fld hab hnone
    rcases fld with ⟨col, name, kind⟩
    simp only [processFieldE, hab, Bool.false_eq_true, if_false]
    simp only at hnone
    rw [hnone]
  · intro n st hab hslide
    simp only [processStickerE, hab, Bool.false_eq_true, if_false, if_pos hslide]

/-- Witness for C6's amended statement: a full run with no host
failure on a concrete presentation ends unaborted. -/
theorem c6_witness :
    (runMainE false dataX noFail presTwo).aborted = false :=
  (c6_tolerated_failures false dataX noFail presTwo (fun _ => rfl)).1

/-- Claim C9: the text write replaces the shape's text exactly when
the shape's text-frame orientation is not one of the two vertical
codes 3 and 4; a vertically oriented shape is left unchanged; a write
the host rejects is swallowed — the presentation is returned unchanged
and nothing propagates — as is a shape without a text frame. -/
theorem c9_text_write_gate (fails : FailSpec) (p : Pres) (k : ℤ × String) (txt : String)
    (s : Shape) (hs : p.shapes k = some s) :
    (fails.textFails k = false → s.hasTextFrame = true →
      ((isVertical s.orientation = false →
        writeShapeTextE fails p k txt = setShape p k { s with text := txt }) ∧
       (isVertical s.orientation = true → writeShapeTextE fails p k txt = p))) ∧
    (fails.textFails k = true → writeShapeTextE fails p k txt = p) ∧
    (s.hasTextFrame = false → writeShapeTextE fails p k txt = p) := by
  refine ⟨fun hf htf => ⟨fun hv => ?_, fun hv => ?_⟩, fun hf => ?_, fun htf => ?_⟩ <;>
    simp [writeShapeTextE, writeShapeText, hs, *]

/-- A one-slide presentation holding a single vertically oriented
shape. -/
def presVert : Pres :=
  ⟨1, fun k =>
    if k = ((1 : ℤ), "Vertical") then some { demoShape with orientation := 3 } else none⟩

/-- Witness for C9: a vertically oriented shape is left unchanged. -/
theorem c9_witness :
    writeShapeTextE noFail presVert ((1 : ℤ), "Vertical") "new" = presVert :=
  ((c9_text_write_gate noFail presVert ((1 : ℤ), "Vertical") "new"
    { demoShape with orientation := 3 } rfl).1 rfl rfl).2 rfl

/-- Counterexample to claim C7 as stated: sticker index 100 lies in
`1..total_stickers`, but its index string `f"{100:02d}" = "100"` has
three digits, so the shape names of stickers 100-120 are not built
from a 2-digit index. -/
theorem c7_counterexample :
    100 ≤ total_stickers ∧ pad2 100 = "100" ∧ (pad2 100).length = 3 ∧
    pointName 100 1 = "Point 100.01" ∧ (3 : ℕ) ≠ 2 := by decide

/-- Claim C7 (amended): for every sticker index `n` in
`1..total_stickers` the source row is `n + 2`, and the six target
shapes are `"Point NN.01"` .. `"Point NN.04"` bound to columns 9-12,
`"LOTO Amount NN"` bound to column 13 and `"Cabinet NN"` bound to
column 14, where `NN` is the index zero-padded to at least two digits
(exactly two digits when `n ≤ 99`); index 13 reads row 15 and targets
`Point 13.01..04`, `LOTO Amount 13` and `Cabinet 13` on slide 3. -/
theorem c7_rows_and_names (n : ℕ) (h1 : 1 ≤ n) (h2 : n ≤ total_stickers) :
    data_row n = n + 2 ∧
    stickerFields n =
      [(9, "Point " ++ pad2 n ++ ".01", .point), (10, "Point " ++ pad2 n ++ ".02", .point),
       (11, "Point " ++ pad2 n ++ ".03", .point), (12, "Point " ++ pad2 n ++ ".04", .point),
       (13, "LOTO Amount " ++ pad2 n, .loto), (14, "Cabinet " ++ pad2 n, .cabinet)] ∧
    (n ≤ 99 → (pad2 n).length = 2) ∧
    data_row 13 = 15 ∧ slide_index 13 = 3 ∧ pos_in_slide 13 = 1 ∧
    stickerFields 13 =
      [(9, "Point 13.01", .point), (10, "Point 13.02", .point), (11, "Point 13.03", .point),
       (12, "Point 13.04", .point), (13, "LOTO Amount 13", .loto),
       (14, "Cabinet 13", .cabinet)] := by
  refine ⟨rfl, ?_, ?_, rfl, by decide, rfl, by decide⟩
  · have e1 : ("." : String) ++ pad2 1 = ".01" := by decide
    have e2 : ("." : String) ++ pad2 2 = ".02" := by decide
    have e3 : ("." : String) ++ pad2 3 = ".03" := by decide
    have e4 : ("." : String) ++ pad2 4 = ".04" := by decide
    simp only [stickerFields, pointName, lotoName, cabinetName, String.append_assoc,
      e1, e2, e3, e4]
  · intro hn
    have h99 : ∀ m : ℕ, m < 100 → (pad2 m).length = 2 := by decide
    exact h99 n (by omega)

/-- Witness for C7's amended statement at index 13. -/
theorem c7_witness : (pad2 13).length = 2 :=
  (c7_rows_and_names 13 (by decide) (by decide)).2.2.1 (by decide)

/-! ## Idempotence machinery lemmas -/

/-- Rewriting a key to the shape it already holds changes nothing. -/
theorem setShape_self (p : Pres) (k : ℤ × String) (s : Shape) (hs : p.shapes k = some s) :
    setShape p k s = p := by
  cases p with
  | mk sc sh =>
      simp only [setShape]
      congr 1
      funext k2
      by_cases h : k2 = k
      · subst h; simpa using hs.symm
      · simp [h]

/-- A reified write never changes the orientation. -/
theorem applyShapeUpd_orientation (u : Upd) (s : Shape) :
    (applyShapeUpd u s).orientation = s.orientation := by
  rcases u with ⟨k, t, r, f⟩
  cases t <;> cases r <;> cases f <;> rfl

/-- A reified write never changes the text-frame presence. -/
theorem applyShapeUpd_hasTextFrame (u : Upd) (s : Shape) :
    (applyShapeUpd u s).hasTextFrame = s.hasTextFrame := by
  rcases u with ⟨k, t, r, f⟩
  cases t <;> cases r <;> cases f <;> rfl

/-- A reified write preserves the gating observables. -/
theorem applyShapeUpd_obs (u : Upd) (s : Shape) :
    shapeObs (applyShapeUpd u s) = shapeObs s := by
  simp [shapeObs, applyShapeUpd_orientation, applyShapeUpd_hasTextFrame]

theorem sameObs_refl (p : Pres) : SameObs p p := ⟨rfl, fun _ => rfl⟩

theorem sameObs_trans {p q r : Pres} (h1 : SameObs p q) (h2 : SameObs q r) : SameObs p r :=
  ⟨h1.1.trans h2.1, fun k => (h1.2 k).trans (h2.2 k)⟩

/-- Applying one reified write preserves the observables. -/
theorem applyUpd_sameObs (p : Pres) (u : Upd) : SameObs (applyUpd p u) p := by
  unfold applyUpd
  cases h : p.shapes u.key with
  | none => exact sameObs_refl p
  | some s =>
      refine ⟨rfl, fun k => ?_⟩
      by_cases hk : k = u.key
      · subst hk; simp [setShape, h, applyShapeUpd_obs]
      · simp [setShape, hk]

/-- Applying a list of reified writes preserves the observables. -/
theorem applyUpds_sameObs (us : List Upd) : ∀ p : Pres, SameObs (applyUpds p us) p := by
  induction us with
  | nil => intro p; exact sameObs_refl p
  | cons u us ih =>
      intro p
      exact sameObs_trans (ih (applyUpd p u)) (applyUpd_sameObs p u)

theorem applyUpds_append (p : Pres) (us vs : List Upd) :
    applyUpds p (us ++ vs) = applyUpds (applyUpds p us) vs := by
  simp [applyUpds, List.foldl_append]

/-- A write with nothing to set changes nothing. -/
theorem applyUpd_trivial (p : Pres) (k : ℤ × String) :
    applyUpd p ⟨k, none, none, none⟩ = p := by
  unfold applyUpd
  cases h : p.shapes k with
  | none => rfl
  | some s => exact setShape_self p k s h

/-- The text-write gate depends only on the observables. -/
theorem textGate_congr {p q : Pres} (h : SameObs p q) (k : ℤ × String) :
    textGate p k = textGate q k := by
  have hk := h.2 k
  unfold textGate
  cases hp : p.shapes k <;> cases hq : q.shapes k <;> rw [hp, hq] at hk <;>
    simp_all [shapeObs]

/-- The font-write gate depends only on the observables. -/
theorem fontGate_congr {p q : Pres} (h : SameObs p q) (k : ℤ × String) :
    fontGate p k = fontGate q k := by
  have hk := h.2 k
  unfold fontGate
  cases hp : p.shapes k <;> cases hq : q.shapes k <;> rw [hp, hq] at hk <;>
    simp_all [shapeObs]

/-- The shape-exists gate depends only on the observables. -/
theorem hasShape_congr {p q : Pres} (h : SameObs p q) (k : ℤ × String) :
    hasShape p k = hasShape q k := by
  have hk := congrArg Option.isSome (h.2 k)
  simpa [hasShape, Option.isSome_map] using hk

/-- The gated text write is one reified write. -/
theorem writeShapeText_eq_applyUpd (p : Pres) (k : ℤ × String) (txt : String) :
    writeShapeText p k txt =
      applyUpd p ⟨k, if textGate p k then some txt else none, none, none⟩ := by
  unfold writeShapeText applyUpd textGate
  cases h : p.shapes k with
  | none => rfl
  | some s =>
      cases hg : s.hasTextFrame && !isVertical s.orientation
      · simp only [hg, Bool.false_eq_true, if_false]
        exact (setShape_self p k s h).symm
      · simp only [hg, if_true]
        rfl

/-- The geometry write is one reified write. -/
theorem apply_coords_eq_applyUpd (p : Pres) (k : ℤ × String) (c : Coords) :
    apply_coords p k c = applyUpd p ⟨k, none, some c, none⟩ := by
  unfold apply_coords applyUpd
  cases p.shapes k <;> rfl

/-- The font write is one reified write. -/
theorem apply_font_size_eq_applyUpd (p : Pres) (k : ℤ × String) (sz : ℚ) :
    apply_font_size p k sz =
      applyUpd p ⟨k, none, none, if fontGate p k then some sz else none⟩ := by
  unfold apply_font_size applyUpd fontGate
  cases h : p.shapes k with
  | none => rfl
  | some s =>
      cases hg : s.hasTextFrame
      · simp only [hg, Bool.false_eq_true, if_false]
        exact (setShape_self p k s h).symm
      · simp only [hg, if_true]
        simp [applyShapeUpd, hg]

/-- The reified writes of a field step depend only on the
observables. -/
theorem fieldUpds_congr (force : Bool) (data : ℕ → ℕ → CellValue) (row pos : ℕ)
    (slide : ℤ) {p q : Pres} (h : SameObs p q) (fld : ℕ × String × FieldKind) :
    fieldUpds force data row pos slide p fld = fieldUpds force data row pos slide q fld := by
  simp only [fieldUpds, hasShape_congr h, textGate_congr h, fontGate_congr h]

/-- One field step of the pure driver is the application of its
reified writes. -/
theorem processFieldP_eq_applyUpds (force : Bool) (data : ℕ → ℕ → CellValue)
    (row pos : ℕ) (slide : ℤ) (p : Pres) (fld : ℕ × String × FieldKind) :
    processFieldP force data row pos slide p fld =
      applyUpds p (fieldUpds force data row pos slide p fld) := by
  rcases fld with ⟨col, name, kind⟩
  simp only [processFieldP, fieldUpds, safe_shape, hasShape]
  cases h : p.shapes (slide, name) with
  | none => rfl
  | some s =>
      simp only [Option.isSome_some, if_true]
      have hobs1 : SameObs (writeShapeText p (slide, name)
          (formatCell (data row col))) p := by
        rw [writeShapeText_eq_applyUpd]; exact applyUpd_sameObs p _
      cases kind with
      | point =>
          cases force
          · simp only [Bool.false_eq_true, if_false]
            rw [writeShapeText_eq_applyUpd]
            rfl
          · simp only [if_true]
            rw [writeShapeText_eq_applyUpd, apply_coords_eq_applyUpd]
            rfl
      | loto =>
          cases force
          · simp only [Bool.false_eq_true, if_false]
            rw [writeShapeText_eq_applyUpd]
            rfl
          · simp only [if_true]
            rw [writeShapeText_eq_applyUpd, apply_coords_eq_applyUpd,
              apply_font_size_eq_applyUpd]
            rw [fontGate_congr (sameObs_trans (applyUpd_sameObs _ _)
              (applyUpd_sameObs _ _))]
            rfl
      | cabinet =>
          cases force
          · simp only [Bool.false_eq_true, if_false]
            rw [writeShapeText_eq_applyUpd, apply_font_size_eq_applyUpd]
            rw [fontGate_congr (applyUpd_sameObs _ _)]
            rfl
          · simp only [if_true]
            rw [writeShapeText_eq_applyUpd, apply_coords_eq_applyUpd,
              apply_font_size_eq_applyUpd]
            rw [fontGate_congr (sameObs_trans (applyUpd_sameObs _ _)
              (applyUpd_sameObs _ _))]
            rfl

/-- Pulling the accumulator out of an append-collecting fold. -/
theorem foldl_append_out {α β : Type} (g : α → List β) :
    ∀ (L : List α) (acc : List β),
      L.foldl (fun acc x => acc ++ g x) acc =
        acc ++ L.foldl (fun acc x => acc ++ g x) [] := by
  intro L
  induction L with
  | nil => intro acc; simp
  | cons a L ih =>
      intro acc
      rw [List.foldl_cons, List.foldl_cons, ih (acc ++ g a), ih ([] ++ g a)]
      simp

/-- A fold of steps that each apply their reified writes, with write
lists depending only on the observables, is the application of the
concatenated write lists (computed once, from the initial state). -/
theorem foldl_eq_applyUpds {α : Type} (step : Pres → α → Pres)
    (updsOf : Pres → α → List Upd)
    (hstep : ∀ p a, step p a = applyUpds p (updsOf p a))
    (hcongr : ∀ {p q : Pres}, SameObs p q → ∀ a, updsOf p a = updsOf q a) :
    ∀ (L : List α) (p : Pres),
      L.foldl step p = applyUpds p (L.foldl (fun acc a => acc ++ updsOf p a) []) := by
  intro L
  induction L with
  | nil => intro p; rfl
  | cons a L ih =>
      intro p
      rw [List.foldl_cons, ih (step p a)]
      have hobs : SameObs (step p a) p := by
        rw [hstep]; exact applyUpds_sameObs _ p
      rw [show (fun acc x => acc ++ updsOf (step p a) x) =
            (fun acc x => acc ++ updsOf p x) from
          funext fun acc => funext fun x => by rw [hcongr hobs x]]
      rw [List.foldl_cons, foldl_append_out (fun x => updsOf p x) L ([] ++ updsOf p a)]
      rw [applyUpds_append]
      rw [hstep p a]
      simp

/-- One sticker step of the pure driver is the application of its
reified writes. -/
theorem processStickerP_eq_applyUpds (force : Bool) (data : ℕ → ℕ → CellValue) (n : ℕ)
    (p : Pres) :
    processStickerP force data n p = applyUpds p (stickerUpds force data n p) := by
  unfold processStickerP stickerUpds
  split
  · rfl
  · exact foldl_eq_applyUpds
      (processFieldP force data (data_row n) (pos_in_slide n) (slide_index n))
      (fieldUpds force data (data_row n) (pos_in_slide n) (slide_index n))
      (processFieldP_eq_applyUpds force data (data_row n) (pos_in_slide n) (slide_index n))
      (fun h fld => fieldUpds_congr force data (data_row n) (pos_in_slide n)
        (slide_index n) h fld)
      (stickerFields n) p

/-- A sticker step preserves the observables. -/
theorem processStickerP_sameObs (force : Bool) (data : ℕ → ℕ → CellValue) (n : ℕ)
    (p : Pres) : SameObs (processStickerP force data n p) p := by
  rw [processStickerP_eq_applyUpds]
  exact applyUpds_sameObs _ p

/-- The reified writes of a sticker depend only on the observables. -/
theorem stickerUpds_congr (force : Bool) (data : ℕ → ℕ → CellValue) (n : ℕ)
    {p q : Pres} (h : SameObs p q) :
    stickerUpds force data n p = stickerUpds force data n q := by
  unfold stickerUpds
  rw [h.1]
  rw [show (fun acc fld =>
        acc ++ fieldUpds force data (data_row n) (pos_in_slide n) (slide_index n) p fld) =
      (fun acc fld =>
        acc ++ fieldUpds force data (data_row n) (pos_in_slide n) (slide_index n) q fld) from
    funext fun acc => funext fun fld => by
      rw [fieldUpds_congr force data (data_row n) (pos_in_slide n) (slide_index n) h fld]]

/-- The whole pure run is the application of its reified writes. -/
theorem runMainP_eq_applyUpds (force : Bool) (data : ℕ → ℕ → CellValue) (p : Pres) :
    runMainP force data p = applyUpds p (runUpds force data p) := by
  unfold runMainP runUpds
  exact foldl_eq_applyUpds
    (fun q n => processStickerP force data n q)
    (fun q n => stickerUpds force data n q)
    (fun q n => processStickerP_eq_applyUpds force data n q)
    (fun h n => stickerUpds_congr force data n h)
    (List.range' 1 total_stickers) p

/-- The pure run preserves the observables. -/
theorem runMainP_sameObs (force : Bool) (data : ℕ → ℕ → CellValue) (p : Pres) :
    SameObs (runMainP force data p) p := by
  rw [runMainP_eq_applyUpds]
  exact applyUpds_sameObs _ p

/-- The reified writes of the run depend only on the observables. -/
theorem runUpds_congr (force : Bool) (data : ℕ → ℕ → CellValue) {p q : Pres}
    (h : SameObs p q) : runUpds force data p = runUpds force data q := by
  unfold runUpds
  rw [show (fun acc n => acc ++ stickerUpds force data n p) =
      (fun acc n => acc ++ stickerUpds force data n q) from
    funext fun acc => funext fun n => by rw [stickerUpds_congr force data n h]]

/-- Splitting the key filter over a cons. -/
theorem keyUpds_cons (k : ℤ × String) (u : Upd) (us : List Upd) :
    keyUpds k (u :: us) = if u.key = k then u :: keyUpds k us else keyUpds k us := by
  unfold keyUpds
  rw [List.filter_cons]
  by_cases h : u.key = k
  · simp [h]
  · simp [h]

/-- Pointwise characterization of applying a write list: each key sees
exactly the writes addressed to it, folded over its original shape. -/
theorem applyUpds_shapes (us : List Upd) :
    ∀ (p : Pres) (k : ℤ × String),
      (applyUpds p us).shapes k = (p.shapes k).map (applyShapeUpds (keyUpds k us)) := by
  induction us with
  | nil =>
      intro p k
      show p.shapes k = (p.shapes k).map (applyShapeUpds (keyUpds k []))
      cases p.shapes k <;> rfl
  | cons u us ih =>
      intro p k
      rw [show applyUpds p (u :: us) = applyUpds (applyUpd p u) us from rfl, ih,
        keyUpds_cons]
      unfold applyUpd
      cases h : p.shapes u.key with
      | none =>
          by_cases hk : u.key = k
          · subst hk
            simp [h]
          · rw [if_neg hk]
      | some s =>
          by_cases hk : u.key = k
          · subst hk
            rw [if_pos rfl, h]
            have hset : (setShape p u.key (applyShapeUpd u s)).shapes u.key =
                some (applyShapeUpd u s) := by simp [setShape]
            rw [hset]
            rfl
          · rw [if_neg hk]
            have hset : (setShape p u.key (applyShapeUpd u s)).shapes k = p.shapes k := by
              simp [setShape, show ¬(k = u.key) from fun hh => hk hh.symm]
            rw [hset]

/-- Fields the write list never sets keep their original value:
text. -/
theorem applyShapeUpds_text (us : List Upd) (h : touchesText us = false) :
    ∀ s : Shape, (applyShapeUpds us s).text = s.text := by
  induction us with
  | nil => intro s; rfl
  | cons u us ih =>
      intro s
      simp only [touchesText, List.any_cons, Bool.or_eq_false_iff] at h
      obtain ⟨h1, h2⟩ := h
      rw [show applyShapeUpds (u :: us) s = applyShapeUpds us (applyShapeUpd u s) from rfl]
      rw [ih (by simpa [touchesText] using h2)]
      rcases u with ⟨k, t, r, f⟩
      cases t with
      | none => cases r <;> cases f <;> rfl
      | some txt => simp at h1

/-- Fields the write list never sets keep their original value:
rectangle. -/
theorem applyShapeUpds_rect (us : List Upd) (h : touchesRect us = false) :
    ∀ s : Shape, (applyShapeUpds us s).left = s.left ∧
      (applyShapeUpds us s).top = s.top ∧
      (applyShapeUpds us s).width = s.width ∧
      (applyShapeUpds us s).height = s.height := by
  induction us with
  | nil => intro s; exact ⟨rfl, rfl, rfl, rfl⟩
  | cons u us ih =>
      intro s
      simp only [touchesRect, List.any_cons, Bool.or_eq_false_iff] at h
      obtain ⟨h1, h2⟩ := h
      rw [show applyShapeUpds (u :: us) s = applyShapeUpds us (applyShapeUpd u s) from rfl]
      obtain ⟨e1, e2, e3, e4⟩ := ih (by simpa [touchesRect] using h2) (applyShapeUpd u s)
      rw [e1, e2, e3, e4]
      rcases u with ⟨k, t, r, f⟩
      cases r with
      | none => cases t <;> cases f <;> exact ⟨rfl, rfl, rfl, rfl⟩
      | some c => simp at h1

/-- Fields the write list never sets keep their original value: font
size. -/
theorem applyShapeUpds_font (us : List Upd) (h : touchesFont us = false) :
    ∀ s : Shape, (applyShapeUpds us s).fontSize = s.fontSize := by
  induction us with
  | nil => intro s; rfl
  | cons u us ih =>
      intro s
      simp only [touchesFont, List.any_cons, Bool.or_eq_false_iff] at h
      obtain ⟨h1, h2⟩ := h
      rw [show applyShapeUpds (u :: us) s = applyShapeUpds us (applyShapeUpd u s) from rfl]
      rw [ih (by simpa [touchesFont] using h2)]
      rcases u with ⟨k, t, r, f⟩
      cases f with
      | none => cases t <;> cases r <;> rfl
      | some fz => simp at h1

/-- Orientation survives any write list. -/
theorem applyShapeUpds_orientation (us : List Upd) :
    ∀ s : Shape, (applyShapeUpds us s).orientation = s.orientation := by
  induction us with
  | nil => intro s; rfl
  | cons u us ih =>
      intro s
      rw [show applyShapeUpds (u :: us) s = applyShapeUpds us (applyShapeUpd u s) from rfl]
      rw [ih (applyShapeUpd u s), applyShapeUpd_orientation]

/-- Text-frame presence survives any write list. -/
theorem applyShapeUpds_hasTextFrame (us : List Upd) :
    ∀ s : Shape, (applyShapeUpds us s).hasTextFrame = s.hasTextFrame := by
  induction us with
  | nil => intro s; rfl
  | cons u us ih =>
      intro s
      rw [show applyShapeUpds (u :: us) s = applyShapeUpds us (applyShapeUpd u s) from rfl]
      rw [ih (applyShapeUpd u s), applyShapeUpd_hasTextFrame]

/-- Two shapes that agree on every field the write list leaves
untouched end up equal after the writes. -/
theorem applyShapeUpds_congr (us : List Upd) :
    ∀ s t : Shape,
      s.orientation = t.orientation → s.hasTextFrame = t.hasTextFrame →
      (touchesText us = false → s.text = t.text) →
      (touchesRect us = false →
        s.left = t.left ∧ s.top = t.top ∧ s.width = t.width ∧ s.height = t.height) →
      (touchesFont us = false → s.fontSize = t.fontSize) →
      applyShapeUpds us s = applyShapeUpds us t := by
  induction us with
  | nil =>
      intro s t h1 h2 h3 h4 h5
      obtain ⟨e1, e2, e3, e4⟩ := h4 rfl
      have et := h3 rfl
      have ef := h5 rfl
      cases s; cases t
      simp_all
  | cons u us ih =>
      intro s t h1 h2 h3 h4 h5
      rw [show applyShapeUpds (u :: us) s = applyShapeUpds us (applyShapeUpd u s) from rfl,
        show applyShapeUpds (u :: us) t = applyShapeUpds us (applyShapeUpd u t) from rfl]
      rcases u with ⟨k, uT, uR, uF⟩
      apply ih
      · rw [applyShapeUpd_orientation, applyShapeUpd_orientation, h1]
      · rw [applyShapeUpd_hasTextFrame, applyShapeUpd_hasTextFrame, h2]
      · intro hT
        cases uT with
        | some txt => cases uR <;> cases uF <;> rfl
        | none =>
            have := h3 (by simpa [touchesText] using hT)
            cases uR <;> cases uF <;> simpa [applyShapeUpd] using this
      · intro hR
        cases uR with
        | some c => cases uT <;> cases uF <;> exact ⟨rfl, rfl, rfl, rfl⟩
        | none =>
            have := h4 (by simpa [touchesRect] using hR)
            cases uT <;> cases uF <;> simpa [applyShapeUpd] using this
      · intro hF
        cases uF with
        | some fz => cases uT <;> cases uR <;> rfl
        | none =>
            have := h5 (by simpa [touchesFont] using hF)
            cases uT <;> cases uR <;> simpa [applyShapeUpd] using this

/-- Applying a write list twice to one shape equals applying it
once. -/
theorem applyShapeUpds_idem (us : List Upd) (s : Shape) :
    applyShapeUpds us (applyShapeUpds us s) = applyShapeUpds us s := by
  apply applyShapeUpds_congr
  · exact applyShapeUpds_orientation us s
  · exact applyShapeUpds_hasTextFrame us s
  · intro h; exact applyShapeUpds_text us h s
  · intro h; exact applyShapeUpds_rect us h s
  · intro h; exact applyShapeUpds_font us h s

/-- Applying a write list twice to the presentation equals applying it
once. -/
theorem applyUpds_idem (p : Pres) (us : List Upd) :
    applyUpds (applyUpds p us) us = applyUpds p us := by
  apply Pres.ext
  · exact (applyUpds_sameObs us (applyUpds p us)).1
  · funext k
    rw [applyUpds_shapes us (applyUpds p us) k, applyUpds_shapes us p k]
    cases p.shapes k with
    | none => rfl
    | some s => simp [applyShapeUpds_idem]

/-- Claim C10: running the write pass twice with unchanged source data
produces the same presentation as running it once (every written shape
gets the same text and the same geometry both times, with no
accumulation).  Each driver write sets fields to values independent of
the shape's previous contents, and whether a write happens depends
only on observables (slide count, shape existence, orientation,
text-frame presence) that no write changes. -/
theorem c10_run_idempotent (force : Bool) (data : ℕ → ℕ → CellValue) (p : Pres) :
    runMainP force data (runMainP force data p) = runMainP force data p := by
  rw [runMainP_eq_applyUpds force data (runMainP force data p),
    runUpds_congr force data (runMainP_sameObs force data p),
    runMainP_eq_applyUpds force data p]
  exact applyUpds_idem p (runUpds force data p)

end PLC40
